import Mathlib

/-!
Verification development for the `datatest-derive` proc-macro crate
(`src/datatest-derive/src/lib.rs`).

The crate is a compile-time code generator: it parses `#[files(...)]`
and `#[data(...)]` annotation arguments, matches the file-rule set
against the annotated function's parameter list, and emits a test
descriptor, a trampoline function and registration glue.

We shallowly embed the relevant pipeline:
* the annotation grammar (`TemplateArg::parse`, `FilesTestArgs`,
  `DataTestArgs`) over a small token model;
* the signature-matching loop of `files_internal` (lines 185-230),
  its post-check (lines 238-245) and the code emission (lines 260-283);
* `handle_common_attrs` (lines 291-324), `test_registration`
  (lines 469-493);
* `data_internal` (lines 364-467) and the runtime behaviour of the
  generated `describe_fn` (lines 448-462).
-/

/-- Token model for the annotation argument streams fed to the
`syn`-based parsers.  `litStr` carries the literal's string value,
`path` stands for a parsed `syn::Path`. -/
inductive Tok where
  | ident (s : String)
  | kwIn
  | eqTok
  | litStr (s : String)
  | kwIf
  | bang
  | path (s : String)
  | comma
deriving DecidableEq, Repr

/-- A `syn::parse::Error`; we keep only the message (the span of parse
errors is not claim-relevant, unlike the matcher's spans below). -/
structure ParseErr where
  msg : String
deriving DecidableEq, Repr

/-- One rule of a file-driven annotation (struct `TemplateArg`,
lines 16-21): `ident (in|=) "value" [if !path]`. -/
structure TemplateArg where
  ident : String
  is_pattern : Bool
  ignore_fn : Option String
  value : String
deriving DecidableEq, Repr

/-- `impl Parse for TemplateArg` (lines 23-48): parse an identifier;
`in` marks a pattern rule, otherwise an `=` is required (template
rule); then a string literal; the `if !<path>` suffix is attempted
only when the rule is a pattern rule. -/
def parseTemplateArg (input : List Tok) : Except ParseErr (TemplateArg × List Tok) :=
  match input with
  | .ident name :: rest1 =>
    match rest1 with
    | .kwIn :: rest2 =>
      match rest2 with
      | .litStr value :: rest3 =>
        match rest3 with
        | .kwIf :: rest4 =>
          match rest4 with
          | .bang :: .path p :: rest5 => .ok (⟨name, true, some p, value⟩, rest5)
          | _ => .error ⟨"expected `!` followed by a path"⟩
        | _ => .ok (⟨name, true, none, value⟩, rest3)
      | _ => .error ⟨"expected string literal"⟩
    | .eqTok :: rest2 =>
      match rest2 with
      | .litStr value :: rest3 => .ok (⟨name, false, none, value⟩, rest3)
      | _ => .error ⟨"expected string literal"⟩
    | _ => .error ⟨"expected `in` or `=`"⟩
  | _ => .error ⟨"expected identifier"⟩

/-- `Punctuated::<TemplateArg, Comma>::parse_terminated` (line 72):
repeatedly parse a rule, separated by commas, until the stream is
exhausted (a trailing comma is allowed).  Fuel-indexed; each step
consumes at least one token, so `length + 1` fuel suffices. -/
def parseTerminatedAux : Nat → List Tok → Except ParseErr (List TemplateArg)
  | _, [] => Except.ok []
  | 0, _ => Except.error ⟨"out of fuel"⟩
  | fuel + 1, toks => do
    let (a, rest) ← parseTemplateArg toks
    match rest with
    | [] => Except.ok [a]
    | .comma :: rest2 => do
      let as ← parseTerminatedAux fuel rest2
      Except.ok (a :: as)
    | _ => Except.error ⟨"expected `,`"⟩

/-- Parse the braced rule list of a `#[files(...)]` annotation. -/
def parseRules (toks : List Tok) : Except ParseErr (List TemplateArg) :=
  parseTerminatedAux (toks.length + 1) toks

/-- `FilesTestArgs` (lines 59-62): the root string and the parsed rule
list.  The Rust code stores the rules in a `HashMap` keyed by the rule
identifier; we keep the parse-order list and give the map's lookup
semantics via `lookupRules` below (on duplicate keys the later insert
wins, as with `collect::<HashMap<_, _>>`). -/
structure FilesTestArgs where
  root : String
  args : List TemplateArg
deriving DecidableEq, Repr

/-- `impl Parse for FilesTestArgs` (lines 65-86): root literal, comma,
braced rule list (brace tokens elided from the token model). -/
def parseFilesTestArgs (root : String) (content : List Tok) : Except ParseErr FilesTestArgs := do
  let rules ← parseRules content
  Except.ok ⟨root, rules⟩

/-- Lookup in the `HashMap<Ident, TemplateArg>` built by
`FilesTestArgs::parse` (lines 73-79): on duplicate identifiers the
later entry overwrites the earlier one. -/
def lookupRules (rs : List TemplateArg) (n : String) : Option TemplateArg :=
  rs.foldl (fun acc a => if a.ident = n then some a else acc) none

/-- A Rust type as it appears in a parameter position: either a
reference type `&T` or any other type (kept opaque). -/
inductive RustTy where
  | ref (inner : String)
  | plain (name : String)
deriving DecidableEq, Repr

/-- A function argument as the matcher sees it (lines 186-191):
either a simple named binding `FnArg::Captured` with `Pat::Ident`,
or any other shape (hit by the `_` arm at line 223); `sp` is an
opaque identifier for the argument's source span. -/
inductive FnArg where
  | simple (name : String) (ty : RustTy)
  | other (sp : Nat)
deriving DecidableEq, Repr

/-- Source location a diagnostic is attached to. -/
inductive Span where
  | callSite
  | paramIdent (name : String)
  | ruleIdent (name : String)
  | argSpan (sp : Nat)
deriving DecidableEq, Repr

/-- A `syn::Error` as produced by the matcher: span plus message. -/
structure MacroError where
  span : Span
  msg : String
deriving DecidableEq, Repr

def twoPatternsMsg : String := "two patterns are not allowed!"

def mappingNotDefinedMsg : String := "mapping is not defined for the argument"

def unexpectedArgMsg : String :=
  "unexpected argument; only simple argument types are allowed (`&str`, `String`, `&[u8]`, `Vec<u8>`, `&Path`, etc)"

def missingPatternMsg : String :=
  "must have exactly one pattern mapping defined via `pattern in r#\"<regular expression>\"`"

/-- One element of the generated trampoline's argument list
(`invoke_args`): either the bare original first-parameter identifier
pushed for a benchmark function (line 195), or the
`TakeArg::take(&mut <ty as DeriveArg>::derive(&paths_arg[idx]))`
expression (lines 214-216). -/
inductive InvokeArg where
  | benchIdent (name : String)
  | takeArg (ty : RustTy) (idx : Nat)
deriving DecidableEq, Repr

/-- The mutable state of the matching loop of `files_internal`
(lines 174-177). -/
structure LoopState where
  patternIdx : Option Nat
  ignoreFn : Option String
  params : List String
  invokeArgs : List InvokeArg
deriving DecidableEq, Repr

def initState : LoopState := ⟨none, none, [], []⟩

/-- The matching loop of `files_internal` (lines 185-230).
`rawIdx` is the enumeration index.  For a benchmark function the
first parameter is consumed without consulting the rules and every
later index is shifted down by one (lines 192-200).  A simple
parameter is looked up by name (line 202); a pattern rule records the
index and ignore function, failing on a duplicate (lines 203-211);
value and derivation code are pushed (lines 213-216); an unmapped name
fails at the parameter (lines 217-221); any other argument shape fails
at its own span (lines 223-228). -/
def matchLoop (bench : Bool) (rules : String → Option TemplateArg) :
    List FnArg → Nat → LoopState → Except MacroError LoopState
  | [], _, s => Except.ok s
  | .simple name ty :: rest, rawIdx, s =>
    if bench && rawIdx == 0 then
      matchLoop bench rules rest (rawIdx + 1)
        { s with invokeArgs := s.invokeArgs ++ [.benchIdent name] }
    else
      let idx := if bench then rawIdx - 1 else rawIdx
      match rules name with
      | some r =>
        if r.is_pattern then
          if s.patternIdx.isSome then
            Except.error ⟨.ruleIdent r.ident, twoPatternsMsg⟩
          else
            matchLoop bench rules rest (rawIdx + 1)
              ⟨some idx, r.ignore_fn, s.params ++ [r.value],
                s.invokeArgs ++ [.takeArg ty idx]⟩
        else
          matchLoop bench rules rest (rawIdx + 1)
            { s with
              params := s.params ++ [r.value],
              invokeArgs := s.invokeArgs ++ [.takeArg ty idx] }
      | none => Except.error ⟨.paramIdent name, mappingNotDefinedMsg⟩
  | .other sp :: _, _, _ => Except.error ⟨.argSpan sp, unexpectedArgMsg⟩

/-- The validated outcome of signature matching: the `params` strings
in parameter order, the pattern index, the optional ignore function
and the trampoline invocation arguments. -/
structure MatchPlan where
  params : List String
  patternIdx : Nat
  ignoreFn : Option String
  invokeArgs : List InvokeArg
deriving DecidableEq, Repr

/-- The whole signature matcher: the loop followed by the
missing-pattern post-check (lines 238-245, reported at the call
site). -/
def matchSignature (bench : Bool) (rules : String → Option TemplateArg)
    (inputs : List FnArg) : Except MacroError MatchPlan :=
  match matchLoop bench rules inputs 0 initState with
  | .error e => Except.error e
  | .ok s =>
    match s.patternIdx with
    | none => Except.error ⟨.callSite, missingPatternMsg⟩
    | some p => Except.ok ⟨s.params, p, s.ignoreFn, s.invokeArgs⟩

/-- The annotated function as the macro sees it: name, outer attribute
names, and the declared inputs. -/
structure FuncItem where
  ident : String
  attrs : List String
  inputs : List FnArg
deriving DecidableEq, Repr

/-- `FuncInfo` (lines 286-289). -/
structure FuncInfo where
  ignore : Bool
  bench : Bool
deriving DecidableEq, Repr

/-- `handle_common_attrs` (lines 291-324): remove the first `test`
attribute, then the first `bench`, then the first `ignore`; report
whether `bench` and `ignore` were present. -/
def handleCommonAttrs (f : FuncItem) : FuncInfo × FuncItem :=
  let a1 := f.attrs.erase "test"
  let hasBench := a1.contains "bench"
  let a2 := a1.erase "bench"
  let hasIgnore := a2.contains "ignore"
  let a3 := a2.erase "ignore"
  (⟨hasIgnore, hasBench⟩, { f with attrs := a3 })

/-- `enum Channel` (lines 88-91). -/
inductive Channel where
  | stable
  | nightly
deriving DecidableEq, Repr

/-- The registration glue emitted by `test_registration`
(lines 469-493): the `#[test_case]` marker on nightly, or the
`ctor`-based registration function on stable. -/
inductive Registration where
  | testCaseAttr
  | ctorRegistration (fnName : String) (descName : String)
deriving DecidableEq, Repr

def test_registration (ch : Channel) (descIdent : String) : Registration :=
  match ch with
  | .nightly => .testCaseAttr
  | .stable => .ctorRegistration (descIdent ++ "__REGISTRATION") descIdent

/-- `FilesTestFn` variant of the descriptor (line 271). -/
inductive FilesTestKind where
  | testFn (trampoline : String)
  | benchFn (trampoline : String)
deriving DecidableEq, Repr

/-- The generated `FilesTestDesc` static (lines 264-272).  The `name`
field is `concat!(module_path!(), "::", name)`; the module path is
unknown at expansion time, so we keep the function name. -/
structure FilesTestDesc where
  name : String
  ignore : Bool
  root : String
  params : List String
  pattern : Nat
  ignorefn : Option String
  kind : FilesTestKind
deriving DecidableEq, Repr

/-- The generated trampoline function (lines 274-279): its name, the
optional leading `bencher: &mut Bencher` parameter (always literally
named `bencher`, line 253), the invocation arguments and the original
function it calls. -/
structure Trampoline where
  ident : String
  benchParam : Option String
  invokeArgs : List InvokeArg
  origFuncName : String
deriving DecidableEq, Repr

/-- Everything `files_internal` emits on success (lines 260-282). -/
structure FilesGenerated where
  registration : Registration
  desc : FilesTestDesc
  trampoline : Trampoline
  origFunc : FuncItem
deriving DecidableEq, Repr

/-- The total output of `files_internal`: either a lone
`compile_error!` diagnostic (every `return Error::new(..)
.to_compile_error().into()` path) or the generated items. -/
inductive FilesOutput where
  | compileError (span : Span) (msg : String)
  | success (g : FilesGenerated)
deriving DecidableEq, Repr

/-- `files_internal` (lines 152-284): strip common attributes, run the
signature matcher, and on success emit registration glue, descriptor,
trampoline and the (stripped) original function. -/
def files_internal (ch : Channel) (args : FilesTestArgs) (func : FuncItem) : FilesOutput :=
  let info := (handleCommonAttrs func).1
  let funcStripped := (handleCommonAttrs func).2
  let descIdent := "__TEST_" ++ func.ident
  let trampolineIdent := "__TEST_TRAMPOLINE_" ++ func.ident
  match matchSignature info.bench (lookupRules args.args) func.inputs with
  | .error e => .compileError e.span e.msg
  | .ok plan =>
    .success
      ⟨test_registration ch descIdent,
        ⟨func.ident, info.ignore, args.root, plan.params, plan.patternIdx,
          plan.ignoreFn,
          if info.bench then .benchFn trampolineIdent else .testFn trampolineIdent⟩,
        ⟨trampolineIdent,
          if info.bench then some "bencher" else none,
          plan.invokeArgs, func.ident⟩,
        funcStripped⟩

/-- Project the trampoline out of a macro output, when it succeeded. -/
def trampolineOf : FilesOutput → Option Trampoline
  | .success g => some g.trampoline
  | .compileError _ _ => none

/-- The variable names a generated invocation argument mentions:
`quote!(#pat_ident)` mentions the original parameter name (line 195);
the `TakeArg` expression mentions the slice parameter `paths_arg`
(line 215). -/
def InvokeArg.refs : InvokeArg → List String
  | .benchIdent n => [n]
  | .takeArg _ _ => ["paths_arg"]

/-- The names bound by the trampoline's own parameter list
(line 276): the optional bencher parameter and `paths_arg`. -/
def Trampoline.scope (t : Trampoline) : List String :=
  (match t.benchParam with
    | some b => [b]
    | none => []) ++ ["paths_arg"]

/-- The generated trampoline body resolves all its variable
references within the trampoline's own parameters. -/
def Trampoline.wellScoped (t : Trampoline) : Bool :=
  t.invokeArgs.all fun a => a.refs.all fun v => t.scope.contains v

/-- `DataTestArgs` (lines 329-332): either a string literal or an
arbitrary captured expression (we keep the expression's raw tokens). -/
inductive DataTestArgs where
  | literal (s : String)
  | expression (toks : List Tok)
deriving DecidableEq, Repr

/-- `impl Parse for DataTestArgs` (lines 335-344): a lookahead on a
string literal selects the literal form, anything else is parsed as an
expression and captured verbatim.  `parse_macro_input!` requires the
whole stream to be consumed, so a literal followed by more tokens is
an error, as is an empty stream (an expression parse needs a token). -/
def parseDataTestArgs (toks : List Tok) : Except ParseErr DataTestArgs :=
  match toks with
  | [] => Except.error ⟨"unexpected end of input"⟩
  | .litStr s :: rest =>
    if rest.isEmpty then Except.ok (.literal s)
    else Except.error ⟨"unexpected token"⟩
  | other => Except.ok (.expression other)

/-- The `cases` expression embedded into the generated `describe_fn`
(lines 371-374): the default loader applied to the path for a literal,
the captured expression verbatim otherwise. -/
inductive CasesExpr where
  | yamlCall (path : String)
  | verbatim (toks : List Tok)
deriving DecidableEq, Repr

def casesOf : DataTestArgs → CasesExpr
  | .literal p => .yamlCall p
  | .expression t => .verbatim t

/-- Everything `data_internal` emits (lines 429-465): registration
glue, the `DataTestDesc` static fields, the generated trampoline's
shape, and the case-source expression baked into `describe_fn`. -/
structure DataGenerated where
  registration : Registration
  descName : String
  ignore : Bool
  describeIdent : String
  trampolineIdent : String
  benchTrampoline : Bool
  refArg : Bool
  argTy : Option RustTy
  source : CasesExpr
  origFunc : FuncItem
deriving DecidableEq, Repr

/-- `data_internal` (lines 364-467): parse the annotation argument,
build the `cases` expression, strip common attributes, pick the first
non-bencher parameter's type (dereferencing one reference layer,
lines 396-412), and emit the generated items. -/
def data_internal (ch : Channel) (argToks : List Tok) (func : FuncItem) :
    Except ParseErr DataGenerated :=
  match parseDataTestArgs argToks with
  | .error e => .error e
  | .ok cases =>
    let casesExpr := casesOf cases
    let info := (handleCommonAttrs func).1
    let funcStripped := (handleCommonAttrs func).2
    let rest := if info.bench then func.inputs.drop 1 else func.inputs
    let tyOpt : Option RustTy :=
      match rest.head? with
      | some (.simple _ ty) => some ty
      | _ => none
    let refTy : Bool × Option RustTy :=
      match tyOpt with
      | some (.ref inner) => (true, some (.plain inner))
      | _ => (false, tyOpt)
    Except.ok
      ⟨test_registration ch ("__TEST_" ++ func.ident),
        "__TEST_" ++ func.ident, info.ignore,
        "__TEST_DESCRIBE_" ++ func.ident,
        "__TEST_TRAMPOLINE_" ++ func.ident,
        info.bench, refTy.1, refTy.2, casesExpr, funcStripped⟩

/-- An element of the sequence produced by the user's case source, as
consumed by the generated `describe_fn` (lines 451-457): a case value
plus `name` and `location` fields. -/
structure DataCaseIn (α : Type) where
  caseVal : α
  name : String
  location : String
deriving DecidableEq, Repr

/-- An element of the sequence the generated `describe_fn` returns:
the wrapped case (a `DataTestFn`) plus the untouched `name` and
`location`. -/
structure DataCaseOut (β : Type) where
  caseVal : β
  name : String
  location : String
deriving DecidableEq, Repr

/-- Runtime behaviour of the generated `describe_fn` (lines 448-462):
map every input case through the wrapping constructor, keeping `name`
and `location`, then assert the collected list is non-empty with the
message `no test cases were found!`. -/
def describe_fn_run {α β : Type} (wrap : α → β) (cases : List (DataCaseIn α)) :
    Except String (List (DataCaseOut β)) :=
  let result := cases.map fun input => ⟨wrap input.caseVal, input.name, input.location⟩
  if result.isEmpty then Except.error "no test cases were found!"
  else Except.ok result

/-! ## Helper lemmas about the rule map -/

theorem lookupRules_snoc (rs : List TemplateArg) (a : TemplateArg) (n : String) :
    lookupRules (rs ++ [a]) n = if a.ident = n then some a else lookupRules rs n := by
  unfold lookupRules
  rw [List.foldl_append]
  rfl

theorem lookupRules_mem {rs : List TemplateArg} {n : String} {r : TemplateArg}
    (h : lookupRules rs n = some r) : r ∈ rs ∧ r.ident = n := by
  induction rs using List.reverseRecOn with
  | nil => simp [lookupRules] at h
  | append_singleton l a ih =>
    rw [lookupRules_snoc] at h
    by_cases ha : a.ident = n
    · simp [ha] at h
      subst h
      exact ⟨List.mem_append_right _ (List.mem_singleton_self a), ha⟩
    · simp [ha] at h
      obtain ⟨hm, hi⟩ := ih h
      exact ⟨List.mem_append_left _ hm, hi⟩

theorem lookupRules_eq_none {rs : List TemplateArg} {n : String} :
    lookupRules rs n = none ↔ ∀ r ∈ rs, r.ident ≠ n := by
  induction rs using List.reverseRecOn with
  | nil => simp [lookupRules]
  | append_singleton l a ih =>
    rw [lookupRules_snoc]
    by_cases ha : a.ident = n
    · rw [if_pos ha]
      constructor
      · intro h
        exact absurd h (by simp)
      · intro h
        exact absurd ha (h a (List.mem_append_right _ (List.mem_singleton_self a)))
    · simp only [ha, if_false, ih]
      constructor
      · intro h r hr
        rcases List.mem_append.mp hr with hl | hs
        · exact h r hl
        · rw [List.mem_singleton.mp hs]
          exact ha
      · intro h r hr
        exact h r (List.mem_append_left _ hr)

theorem lookupRules_of_mem {rs : List TemplateArg} {n : String} {r : TemplateArg}
    (hnd : (rs.map TemplateArg.ident).Nodup) (hm : r ∈ rs) (hi : r.ident = n) :
    lookupRules rs n = some r := by
  induction rs using List.reverseRecOn with
  | nil => simp at hm
  | append_singleton l a ih =>
    rw [List.map_append, List.nodup_append] at hnd
    obtain ⟨hndl, -, hdisj⟩ := hnd
    rw [lookupRules_snoc]
    rcases List.mem_append.mp hm with hl | hs
    · have hanotn : a.ident ≠ n := by
        intro hcontra
        apply hdisj (a := r.ident) (List.mem_map_of_mem TemplateArg.ident hl)
        simp [hi, hcontra]
      rw [if_neg hanotn]
      exact ih hndl hl
    · rw [List.mem_singleton.mp hs] at hi ⊢
      simp [hi]

theorem lookupRules_perm {rs rs' : List TemplateArg} (hp : rs.Perm rs')
    (hnd : (rs.map TemplateArg.ident).Nodup) (n : String) :
    lookupRules rs n = lookupRules rs' n := by
  have hnd' : (rs'.map TemplateArg.ident).Nodup := (hp.map TemplateArg.ident).nodup_iff.mp hnd
  cases h : lookupRules rs n with
  | some r =>
    obtain ⟨hm, hi⟩ := lookupRules_mem h
    exact (lookupRules_of_mem hnd' (hp.mem_iff.mp hm) hi).symm
  | none =>
    cases h' : lookupRules rs' n with
    | some r =>
      obtain ⟨hm, hi⟩ := lookupRules_mem h'
      exact absurd hi (lookupRules_eq_none.mp h r (hp.mem_iff.mpr hm))
    | none => rfl

theorem lookupRules_middle {r : TemplateArg} {n : String} (hne : n ≠ r.ident)
    (pre post : List TemplateArg) :
    lookupRules (pre ++ r :: post) n = lookupRules (pre ++ post) n := by
  unfold lookupRules
  rw [List.foldl_append, List.foldl_append, List.foldl_cons]
  have hstep : (if r.ident = n then some r else List.foldl (fun acc a => if a.ident = n then some a else acc) none pre) = List.foldl (fun acc a => if a.ident = n then some a else acc) none pre := by
    rw [if_neg (fun h => hne h.symm)]
  simp only [hstep]

/-! ## Helper lemmas about the matching loop -/

theorem matchLoop_cons_simple (bench : Bool) (rules : String → Option TemplateArg)
    (name : String) (ty : RustTy) (rest : List FnArg) (rawIdx : Nat) (s : LoopState) :
    matchLoop bench rules (.simple name ty :: rest) rawIdx s =
      if bench && rawIdx == 0 then
        matchLoop bench rules rest (rawIdx + 1)
          { s with invokeArgs := s.invokeArgs ++ [.benchIdent name] }
      else
        match rules name with
        | some r =>
          if r.is_pattern then
            if s.patternIdx.isSome then
              Except.error ⟨.ruleIdent r.ident, twoPatternsMsg⟩
            else
              matchLoop bench rules rest (rawIdx + 1)
                ⟨some (if bench then rawIdx - 1 else rawIdx), r.ignore_fn,
                  s.params ++ [r.value],
                  s.invokeArgs ++ [.takeArg ty (if bench then rawIdx - 1 else rawIdx)]⟩
          else
            matchLoop bench rules rest (rawIdx + 1)
              { s with
                params := s.params ++ [r.value],
                invokeArgs := s.invokeArgs ++ [.takeArg ty (if bench then rawIdx - 1 else rawIdx)] }
        | none => Except.error ⟨.paramIdent name, mappingNotDefinedMsg⟩ := rfl

theorem matchLoop_append (bench : Bool) (rules : String → Option TemplateArg)
    (l1 l2 : List FnArg) : ∀ k s,
    matchLoop bench rules (l1 ++ l2) k s =
      (matchLoop bench rules l1 k s).bind
        (fun s1 => matchLoop bench rules l2 (k + l1.length) s1) := by
  induction l1 with
  | nil =>
    intro k s
    simp [matchLoop, Except.bind]
  | cons a l1' ih =>
    intro k s
    have hlen : (k + 1) + l1'.length = k + (l1'.length + 1) := by omega
    cases a with
    | simple name ty =>
      rw [List.cons_append, matchLoop_cons_simple, matchLoop_cons_simple]
      by_cases hb : (bench && k == 0) = true
      · rw [if_pos hb, if_pos hb, ih]
        simp [hlen]
      · rw [if_neg hb, if_neg hb]
        cases hr : rules name with
        | none => rfl
        | some r =>
          by_cases hp : r.is_pattern = true
          · by_cases hs : s.patternIdx.isSome = true
            · simp only [hp, if_true, hs]
              rfl
            · simp only [hp, if_true, hs, if_neg, ih]
              simp [hs, hlen]
          · simp only [hp, if_false, ih]
            simp [hp, hlen]
    | other sp =>
      rfl

theorem matchLoop_shift (rules : String → Option TemplateArg) (l : List FnArg) :
    ∀ k s, matchLoop true rules l (k + 1) s = matchLoop false rules l k s := by
  induction l with
  | nil =>
    intro k s
    rfl
  | cons a l' ih =>
    intro k s
    cases a with
    | simple name ty =>
      rw [matchLoop_cons_simple, matchLoop_cons_simple]
      simp only [Nat.add_sub_cancel, Bool.and_self, Bool.false_and, Bool.true_and]
      have hb1 : ((k + 1 : Nat) == 0) = false := by simp
      simp only [hb1, Bool.false_eq_true, if_false, if_true]
      cases hr : rules name with
      | none => rfl
      | some r =>
        by_cases hp : r.is_pattern = true
        · by_cases hs : s.patternIdx.isSome = true
          · simp [hp, hs]
          · simp [hp, hs, ih (k + 1)]
        · simp [hp, ih (k + 1)]
    | other sp =>
      rfl

theorem matchLoop_frame (bench : Bool) (rules : String → Option TemplateArg)
    (l : List FnArg) : ∀ k pi ig ps ia ps0 ia0,
    matchLoop bench rules l k ⟨pi, ig, ps0 ++ ps, ia0 ++ ia⟩ =
      (matchLoop bench rules l k ⟨pi, ig, ps, ia⟩).map
        (fun s => ⟨s.patternIdx, s.ignoreFn, ps0 ++ s.params, ia0 ++ s.invokeArgs⟩) := by
  induction l with
  | nil =>
    intro k pi ig ps ia ps0 ia0
    simp [matchLoop, Except.map]
  | cons a l' ih =>
    intro k pi ig ps ia ps0 ia0
    cases a with
    | simple name ty =>
      rw [matchLoop_cons_simple, matchLoop_cons_simple]
      by_cases hb : (bench && k == 0) = true
      · rw [if_pos hb, if_pos hb]
        have := ih (k + 1) pi ig ps (ia ++ [InvokeArg.benchIdent name]) ps0 ia0
        simpa [List.append_assoc] using this
      · rw [if_neg hb, if_neg hb]
        cases hr : rules name with
        | none => simp [Except.map]
        | some r =>
          by_cases hp : r.is_pattern = true
          · by_cases hs : pi.isSome = true
            · simp [hp, hs, Except.map]
            · have := ih (k + 1) (some (if bench then k - 1 else k)) r.ignore_fn
                (ps ++ [r.value])
                (ia ++ [InvokeArg.takeArg ty (if bench then k - 1 else k)]) ps0 ia0
              simp only [hp, if_true, hs, if_false]
              simpa [List.append_assoc] using this
          · have := ih (k + 1) pi ig (ps ++ [r.value])
              (ia ++ [InvokeArg.takeArg ty (if bench then k - 1 else k)]) ps0 ia0
            simp only [hp, if_false]
            simpa [List.append_assoc] using this
    | other sp =>
      simp [matchLoop, Except.map]

theorem matchLoop_congr (bench : Bool) (rules1 rules2 : String → Option TemplateArg)
    (l : List FnArg)
    (h : ∀ name ty, FnArg.simple name ty ∈ l → rules1 name = rules2 name) :
    ∀ k s, matchLoop bench rules1 l k s = matchLoop bench rules2 l k s := by
  induction l with
  | nil =>
    intro k s
    rfl
  | cons a l' ih =>
    intro k s
    have htail : ∀ name ty, FnArg.simple name ty ∈ l' → rules1 name = rules2 name :=
      fun name ty hm => h name ty (List.mem_cons_of_mem a hm)
    cases a with
    | simple name ty =>
      have hhead : rules1 name = rules2 name := h name ty (List.mem_cons_self _ _)
      rw [matchLoop_cons_simple, matchLoop_cons_simple, hhead]
      by_cases hb : (bench && k == 0) = true
      · rw [if_pos hb, if_pos hb]
        exact ih htail (k + 1) _
      · rw [if_neg hb, if_neg hb]
        cases hr : rules2 name with
        | none => rfl
        | some r =>
          by_cases hp : r.is_pattern = true
          · by_cases hs : s.patternIdx.isSome = true
            · simp [hp, hs]
            · simp only [hp, if_true, hs, if_false]
              exact ih htail (k + 1) _
          · simp only [hp, if_false]
            exact ih htail (k + 1) _
    | other sp =>
      rfl

theorem matchLoop_ok_prefix (bench : Bool) (rules : String → Option TemplateArg)
    (l1 l2 : List FnArg) (k : Nat) (s s' : LoopState)
    (h : matchLoop bench rules (l1 ++ l2) k s = .ok s') :
    ∃ s1, matchLoop bench rules l1 k s = .ok s1 ∧
      matchLoop bench rules l2 (k + l1.length) s1 = .ok s' := by
  rw [matchLoop_append] at h
  cases h1 : matchLoop bench rules l1 k s with
  | error e =>
    rw [h1] at h
    exact absurd h (by simp [Except.bind])
  | ok s1 =>
    rw [h1] at h
    exact ⟨s1, rfl, by simpa [Except.bind] using h⟩

theorem matchLoop_ok_ext (rules : String → Option TemplateArg) (l : List FnArg) :
    ∀ k s s', matchLoop false rules l k s = .ok s' →
    ∃ eps eia, s'.params = s.params ++ eps ∧ s'.invokeArgs = s.invokeArgs ++ eia ∧
      eps.length = l.length ∧ eia.length = l.length ∧
      ∀ i, i < l.length →
        ∃ n ty r, l.get? i = some (.simple n ty) ∧ rules n = some r ∧
          eps.get? i = some r.value ∧ eia.get? i = some (.takeArg ty (k + i)) := by
  induction l with
  | nil =>
    intro k s s' h
    simp [matchLoop] at h
    subst h
    refine ⟨[], [], by simp, by simp, rfl, rfl, ?_⟩
    intro i hi
    simp at hi
  | cons a l' ih =>
    intro k s s' h
    cases a with
    | simple name ty =>
      rw [matchLoop_cons_simple] at h
      simp only [Bool.false_and, Bool.false_eq_true, if_false] at h
      cases hr : rules name with
      | none =>
        rw [hr] at h
        exact absurd h (by simp)
      | some r =>
        simp only [hr] at h
        by_cases hp : r.is_pattern = true
        · rw [if_pos hp] at h
          by_cases hs : s.patternIdx.isSome = true
          · rw [if_pos hs] at h
            exact absurd h (by simp)
          · rw [if_neg hs] at h
            obtain ⟨eps, eia, hps, hia, hlp, hli, hidx⟩ := ih (k + 1) _ s' h
            refine ⟨r.value :: eps, .takeArg ty k :: eia, ?_, ?_, by simp [hlp], by simp [hli], ?_⟩
            · rw [hps]
              simp
            · rw [hia]
              simp
            · intro i hi
              cases i with
              | zero => exact ⟨name, ty, r, by simp, hr, by simp, by simp⟩
              | succ i' =>
                have hi' : i' < l'.length := by
                  simp at hi
                  omega
                obtain ⟨n2, ty2, r2, hg, hr2, hep, hei⟩ := hidx i' hi'
                refine ⟨n2, ty2, r2, by simpa using hg, hr2, by simpa using hep, ?_⟩
                have : (k + 1) + i' = k + (i' + 1) := by omega
                rw [this] at hei
                simpa using hei
        · rw [if_neg hp] at h
          obtain ⟨eps, eia, hps, hia, hlp, hli, hidx⟩ := ih (k + 1) _ s' h
          refine ⟨r.value :: eps, .takeArg ty k :: eia, ?_, ?_, by simp [hlp], by simp [hli], ?_⟩
          · rw [hps]
            simp
          · rw [hia]
            simp
          · intro i hi
            cases i with
            | zero => exact ⟨name, ty, r, by simp, hr, by simp, by simp⟩
            | succ i' =>
              have hi' : i' < l'.length := by
                simp at hi
                omega
              obtain ⟨n2, ty2, r2, hg, hr2, hep, hei⟩ := hidx i' hi'
              refine ⟨n2, ty2, r2, by simpa using hg, hr2, by simpa using hep, ?_⟩
              have : (k + 1) + i' = k + (i' + 1) := by omega
              rw [this] at hei
              simpa using hei
    | other sp =>
      rw [show matchLoop false rules (.other sp :: l') k s = Except.error ⟨.argSpan sp, unexpectedArgMsg⟩ from rfl] at h
      exact absurd h (by simp)

theorem matchLoop_ok_pattern (rules : String → Option TemplateArg) (l : List FnArg) :
    ∀ k s s', matchLoop false rules l k s = .ok s' →
    (s'.patternIdx = s.patternIdx ∧ s'.ignoreFn = s.ignoreFn ∧
      ∀ i n ty r, l.get? i = some (.simple n ty) → rules n = some r →
        r.is_pattern = false) ∨
    (s.patternIdx = none ∧
      ∃ j n ty r, l.get? j = some (.simple n ty) ∧ rules n = some r ∧
        r.is_pattern = true ∧ s'.patternIdx = some (k + j) ∧ s'.ignoreFn = r.ignore_fn ∧
        ∀ i n2 ty2 r2, i ≠ j → l.get? i = some (.simple n2 ty2) → rules n2 = some r2 →
          r2.is_pattern = false) := by
  induction l with
  | nil =>
    intro k s s' h
    simp [matchLoop] at h
    subst h
    left
    refine ⟨rfl, rfl, ?_⟩
    intro i n ty r hg
    simp at hg
  | cons a l' ih =>
    intro k s s' h
    cases a with
    | simple name ty =>
      rw [matchLoop_cons_simple] at h
      simp only [Bool.false_and, Bool.false_eq_true, if_false] at h
      cases hr : rules name with
      | none =>
        simp only [hr] at h
        exact absurd h (by simp)
      | some r =>
        simp only [hr] at h
        by_cases hp : r.is_pattern = true
        · rw [if_pos hp] at h
          by_cases hs : s.patternIdx.isSome = true
          · rw [if_pos hs] at h
            exact absurd h (by simp)
          · rw [if_neg hs] at h
            have hsnone : s.patternIdx = none := Option.not_isSome_iff_eq_none.mp hs
            rcases ih (k + 1) _ s' h with ⟨hpi, hig, hnone⟩ | ⟨h2none, -⟩
            · right
              refine ⟨hsnone, 0, name, ty, r, by simp, hr, hp, ?_, by simpa using hig, ?_⟩
              · rw [hpi]
                simp
              · intro i n2 ty2 r2 hne hg hr2
                cases i with
                | zero => exact absurd rfl hne
                | succ i' => exact hnone i' n2 ty2 r2 (by simpa using hg) hr2
            · simp at h2none
        · rw [if_neg hp] at h
          rcases ih (k + 1) _ s' h with ⟨hpi, hig, hnone⟩ | ⟨h2none, j, n2, ty2, r2, hg, hr2, hp2, hpi, hig, huniq⟩
          · left
            refine ⟨by simpa using hpi, by simpa using hig, ?_⟩
            intro i n2 ty2 r2 hg hr2
            cases i with
            | zero =>
              simp at hg
              obtain ⟨hn, -⟩ := hg
              rw [← hn] at hr2
              rw [hr] at hr2
              injection hr2 with hrr
              rw [← hrr]
              simpa using hp
            | succ i' => exact hnone i' n2 ty2 r2 (by simpa using hg) hr2
          · right
            refine ⟨by simpa using h2none, j + 1, n2, ty2, r2, by simpa using hg, hr2, hp2, ?_, hig, ?_⟩
            · rw [hpi]
              have : (k + 1) + j = k + (j + 1) := by omega
              rw [this]
            · intro i n3 ty3 r3 hne hg3 hr3
              cases i with
              | zero =>
                simp at hg3
                obtain ⟨hn, -⟩ := hg3
                rw [← hn] at hr3
                rw [hr] at hr3
                injection hr3 with hrr
                rw [← hrr]
                simpa using hp
              | succ i' =>
                exact huniq i' n3 ty3 r3 (fun hcontra => hne (by rw [hcontra])) (by simpa using hg3) hr3
    | other sp =>
      exact absurd h (by simp [matchLoop])

theorem matchLoop_pattern_source (bench : Bool) (rules : String → Option TemplateArg)
    (l : List FnArg) : ∀ k s s', matchLoop bench rules l k s = .ok s' →
    s'.patternIdx = s.patternIdx ∨
    ∃ n ty r, FnArg.simple n ty ∈ l ∧ rules n = some r ∧ r.is_pattern = true := by
  induction l with
  | nil =>
    intro k s s' h
    simp [matchLoop] at h
    subst h
    exact Or.inl rfl
  | cons a l' ih =>
    intro k s s' h
    cases a with
    | simple name ty =>
      rw [matchLoop_cons_simple] at h
      by_cases hb : (bench && k == 0) = true
      · rw [if_pos hb] at h
        rcases ih (k + 1) _ s' h with hsame | ⟨n, ty2, r, hm, hr, hp⟩
        · exact Or.inl hsame
        · exact Or.inr ⟨n, ty2, r, List.mem_cons_of_mem _ hm, hr, hp⟩
      · rw [if_neg hb] at h
        cases hr : rules name with
        | none =>
          simp only [hr] at h
          exact absurd h (by simp)
        | some r =>
          simp only [hr] at h
          by_cases hp : r.is_pattern = true
          · exact Or.inr ⟨name, ty, r, List.mem_cons_self _ _, hr, hp⟩
          · rw [if_neg hp] at h
            rcases ih (k + 1) _ s' h with hsame | ⟨n, ty2, r2, hm, hr2, hp2⟩
            · exact Or.inl hsame
            · exact Or.inr ⟨n, ty2, r2, List.mem_cons_of_mem _ hm, hr2, hp2⟩
    | other sp =>
      exact absurd h (by simp [matchLoop])

theorem matchLoop_no_pattern_ok (bench : Bool) (rules : String → Option TemplateArg)
    (l : List FnArg)
    (h : ∀ a ∈ l, ∃ n ty, a = FnArg.simple n ty ∧
      ∃ r, rules n = some r ∧ r.is_pattern = false) :
    ∀ k s, ∃ s', matchLoop bench rules l k s = .ok s' ∧ s'.patternIdx = s.patternIdx := by
  induction l with
  | nil =>
    intro k s
    exact ⟨s, rfl, rfl⟩
  | cons a l' ih =>
    intro k s
    have htail : ∀ a ∈ l', ∃ n ty, a = FnArg.simple n ty ∧
        ∃ r, rules n = some r ∧ r.is_pattern = false :=
      fun a2 hm => h a2 (List.mem_cons_of_mem a hm)
    obtain ⟨n, ty, ha, r, hr, hp⟩ := h a (List.mem_cons_self _ _)
    subst ha
    rw [matchLoop_cons_simple]
    by_cases hb : (bench && k == 0) = true
    · rw [if_pos hb]
      exact ih htail (k + 1) _
    · rw [if_neg hb]
      simp only [hr, hp, Bool.false_eq_true, if_false]
      exact ih htail (k + 1) _

/-! ## Claim theorems -/

/-- C4: the generated `describe_fn` fails with the assertion message
`no test cases were found!` if and only if the user-supplied case
source produces an empty sequence; when the source produces `n ≥ 1`
cases it returns exactly `n` wrapped case descriptors whose `name` and
`location` fields equal those of the corresponding input cases
unchanged. -/
theorem c4_describe_fn_empty_assert_and_preserves {α β : Type} (wrap : α → β)
    (cs : List (DataCaseIn α)) :
    (describe_fn_run wrap cs = Except.error "no test cases were found!" ↔ cs = []) ∧
    (∀ out, describe_fn_run wrap cs = Except.ok out →
      out.length = cs.length ∧
      ∀ i, (out.get? i).map DataCaseOut.name = (cs.get? i).map DataCaseIn.name ∧
        (out.get? i).map DataCaseOut.location = (cs.get? i).map DataCaseIn.location) := by
  cases cs with
  | nil =>
    refine ⟨⟨fun _ => rfl, fun _ => rfl⟩, ?_⟩
    intro out hout
    exact absurd hout (by simp [describe_fn_run])
  | cons c0 tl =>
    constructor
    · constructor
      · intro h
        exact absurd h (by simp [describe_fn_run])
      · intro h
        exact absurd h (by simp)
    · intro out hout
      have hout2 : out = (c0 :: tl).map
          (fun input => (⟨wrap input.caseVal, input.name, input.location⟩ : DataCaseOut β)) := by
        have := hout.symm
        simpa [describe_fn_run] using this
      subst hout2
      refine ⟨by simp, ?_⟩
      intro i
      constructor
      · rw [List.get?_map, Option.map_map]
        rfl
      · rw [List.get?_map, Option.map_map]
        rfl

/-- C7: the annotation grammar parses the `if !<predicate-path>`
suffix only after an `in` (Pattern) rule: a parsed `TemplateArg` can
carry an ignore function only when it is a pattern rule, and an
annotation in which a `=` (Template) rule is followed by an `if` token
fails to parse. -/
theorem c7_if_suffix_only_for_pattern_rules :
    (∀ toks a rest, parseTemplateArg toks = .ok (a, rest) →
      a.ignore_fn.isSome = true → a.is_pattern = true) ∧
    (∀ n v rest root, parseFilesTestArgs root
        (.ident n :: .eqTok :: .litStr v :: .kwIf :: rest) =
      .error ⟨"expected `,`"⟩) := by
  constructor
  · intro toks a rest h hig
    unfold parseTemplateArg at h
    repeat' split at h
    all_goals simp at h
    all_goals obtain ⟨ha, -⟩ := h
    all_goals rw [← ha] at hig ⊢
    all_goals simp at hig ⊢
  · intro n v rest root
    rfl

/-- C8: for a case-driven annotation the parser turns a bare string
literal into the default-loader invocation applied to that path, and
captures any other input as an arbitrary expression verbatim,
embedding it into the generated `describe_fn` untransformed. -/
theorem c8_case_source_literal_or_verbatim :
    (∀ ch s func g, data_internal ch [.litStr s] func = .ok g →
      g.source = .yamlCall s) ∧
    (∀ ch toks func g, toks ≠ [] → (∀ s rest, toks ≠ .litStr s :: rest) →
      data_internal ch toks func = .ok g → g.source = .verbatim toks) := by
  constructor
  · intro ch s func g h
    simp [data_internal, parseDataTestArgs] at h
    subst h
    rfl
  · intro ch toks func g hne hnl h
    cases toks with
    | nil => exact absurd rfl hne
    | cons t ts =>
      cases t with
      | litStr s => exact absurd rfl (hnl s ts)
      | ident s =>
        simp [data_internal, parseDataTestArgs] at h
        subst h
        rfl
      | kwIn =>
        simp [data_internal, parseDataTestArgs] at h
        subst h
        rfl
      | eqTok =>
        simp [data_internal, parseDataTestArgs] at h
        subst h
        rfl
      | kwIf =>
        simp [data_internal, parseDataTestArgs] at h
        subst h
        rfl
      | bang =>
        simp [data_internal, parseDataTestArgs] at h
        subst h
        rfl
      | path s =>
        simp [data_internal, parseDataTestArgs] at h
        subst h
        rfl
      | comma =>
        simp [data_internal, parseDataTestArgs] at h
        subst h
        rfl

theorem matchSignature_ok_elim (bench : Bool) (rules : String → Option TemplateArg)
    (inputs : List FnArg) (plan : MatchPlan)
    (h : matchSignature bench rules inputs = .ok plan) :
    ∃ s, matchLoop bench rules inputs 0 initState = .ok s ∧
      s.patternIdx = some plan.patternIdx ∧ plan.params = s.params ∧
      plan.ignoreFn = s.ignoreFn ∧ plan.invokeArgs = s.invokeArgs := by
  unfold matchSignature at h
  cases hm : matchLoop bench rules inputs 0 initState with
  | error e =>
    simp only [hm] at h
    exact absurd h (by simp)
  | ok s =>
    simp only [hm] at h
    cases hp : s.patternIdx with
    | none =>
      simp only [hp] at h
      exact absurd h (by simp)
    | some p =>
      simp only [hp, Except.ok.injEq] at h
      rw [← h]
      exact ⟨s, rfl, by rw [hp], rfl, rfl, rfl⟩

/-- C2: for a benchmark-marked function the signature matcher excludes
the first declared parameter from rule matching regardless of the rule
set (the whole match result is that of the remaining parameters, with
only the bare first-parameter identifier prepended to the trampoline
invocation), and every subsequent parameter is shifted down by one, so
the second declared parameter occupies position `0` of the `params`
array and is derived from `paths_arg[0]`. -/
theorem c2_bench_first_param_excluded_rest_shifted :
    (∀ (rules : String → Option TemplateArg) n0 ty0 rest,
      matchSignature true rules (.simple n0 ty0 :: rest) =
        (matchSignature false rules rest).map
          (fun p => { p with invokeArgs := .benchIdent n0 :: p.invokeArgs })) ∧
    (∀ (rules : String → Option TemplateArg) n0 ty0 n1 ty1 rest plan,
      matchSignature true rules (.simple n0 ty0 :: .simple n1 ty1 :: rest) = .ok plan →
      ∃ r, rules n1 = some r ∧ plan.params.get? 0 = some r.value ∧
        plan.invokeArgs.get? 0 = some (.benchIdent n0) ∧
        plan.invokeArgs.get? 1 = some (.takeArg ty1 0)) := by
  have hmain : ∀ (rules : String → Option TemplateArg) n0 ty0 rest,
      matchSignature true rules (.simple n0 ty0 :: rest) =
        (matchSignature false rules rest).map
          (fun p => { p with invokeArgs := .benchIdent n0 :: p.invokeArgs }) := by
    intro rules n0 ty0 rest
    have hloop : matchLoop true rules (.simple n0 ty0 :: rest) 0 initState =
        (matchLoop false rules rest 0 initState).map
          (fun s => ⟨s.patternIdx, s.ignoreFn, s.params, .benchIdent n0 :: s.invokeArgs⟩) := by
      rw [matchLoop_cons_simple]
      rw [if_pos (by simp)]
      have h1 : matchLoop true rules rest (0 + 1)
          { initState with invokeArgs := initState.invokeArgs ++ [InvokeArg.benchIdent n0] } =
          matchLoop false rules rest 0 ⟨none, none, [], [InvokeArg.benchIdent n0]⟩ := by
        rw [matchLoop_shift]
        rfl
      rw [h1]
      have h2 : (⟨none, none, [], [InvokeArg.benchIdent n0]⟩ : LoopState) =
          ⟨none, none, [] ++ [], [InvokeArg.benchIdent n0] ++ []⟩ := by simp
      rw [h2, matchLoop_frame]
      simp only [initState, List.nil_append, List.singleton_append]
    unfold matchSignature
    rw [hloop]
    cases hM : matchLoop false rules rest 0 initState with
    | error e => rfl
    | ok s =>
      simp only [Except.map]
      cases hp : s.patternIdx with
      | none => rfl
      | some p => rfl
  refine ⟨hmain, ?_⟩
  intro rules n0 ty0 n1 ty1 rest plan h
  rw [hmain] at h
  cases hfalse : matchSignature false rules (.simple n1 ty1 :: rest) with
  | error e =>
    rw [hfalse] at h
    simp [Except.map] at h
  | ok plan' =>
    rw [hfalse] at h
    simp [Except.map] at h
    obtain ⟨s, hloop, hpat, hparams, hig, hinv⟩ :=
      matchSignature_ok_elim false rules (.simple n1 ty1 :: rest) plan' hfalse
    obtain ⟨eps, eia, hps, hia, hlp, hli, hidx⟩ :=
      matchLoop_ok_ext rules (.simple n1 ty1 :: rest) 0 initState s hloop
    obtain ⟨n, ty, r, hg, hr, hep, hei⟩ := hidx 0 (by simp)
    have hn : n = n1 ∧ ty = ty1 := by
      simp at hg
      exact ⟨hg.1.symm, hg.2.symm⟩
    obtain ⟨hn1, hty1⟩ := hn
    subst hn1
    subst hty1
    refine ⟨r, hr, ?_, ?_, ?_⟩
    · rw [← h]
      simp only [MatchPlan.mk.injEq]
      rw [hparams, hps]
      simpa using hep
    · rw [← h]
      rfl
    · rw [← h]
      simp only []
      rw [hinv, hia]
      have : (InvokeArg.benchIdent n0 :: (initState.invokeArgs ++ eia)).get? 1 = eia.get? 0 := by
        simp [initState]
      rw [this]
      simpa using hei

theorem files_internal_success_elim (ch : Channel) (args : FilesTestArgs)
    (f : FuncItem) (g : FilesGenerated)
    (h : files_internal ch args f = .success g) :
    ∃ plan, matchSignature (handleCommonAttrs f).1.bench (lookupRules args.args)
        f.inputs = .ok plan ∧
      g.desc.params = plan.params ∧ g.desc.pattern = plan.patternIdx ∧
      g.desc.ignorefn = plan.ignoreFn ∧
      g.trampoline.invokeArgs = plan.invokeArgs ∧
      g.trampoline.benchParam =
        (if (handleCommonAttrs f).1.bench then some "bencher" else none) := by
  unfold files_internal at h
  cases hm : matchSignature (handleCommonAttrs f).1.bench (lookupRules args.args) f.inputs with
  | error e =>
    simp only [hm] at h
    exact absurd h (by simp)
  | ok plan =>
    simp only [hm, FilesOutput.success.injEq] at h
    rw [← h]
    exact ⟨plan, rfl, rfl, rfl, rfl, rfl, rfl⟩

/-- C5: whenever signature matching fails, the entire output of
`files_internal` is the compile-error diagnostic alone (the
`compileError` constructor carries nothing but the span and the
message: no descriptor, no trampoline, no registration glue and no
copy of the original function are emitted). -/
theorem c5_match_failure_emits_only_diagnostic :
    ∀ ch args f e,
      matchSignature (handleCommonAttrs f).1.bench (lookupRules args.args)
        f.inputs = .error e →
      files_internal ch args f = .compileError e.span e.msg := by
  intro ch args f e h
  simp [files_internal, h]

/-- C6: a simple named parameter whose name is not a key of the rule
map makes matching fail: as soon as the loop reaches it the diagnostic
`mapping is not defined for the argument` is reported at that
parameter, wherever it appears in the declaration order; and no
signature containing such a parameter ever matches successfully. -/
theorem c6_unmapped_parameter_fails :
    (∀ (rs : List TemplateArg) n ty pre post s1,
      lookupRules rs n = none →
      matchLoop false (lookupRules rs) pre 0 initState = .ok s1 →
      matchSignature false (lookupRules rs) (pre ++ .simple n ty :: post) =
        .error ⟨.paramIdent n, mappingNotDefinedMsg⟩) ∧
    (∀ (rs : List TemplateArg) n ty inputs plan,
      lookupRules rs n = none → FnArg.simple n ty ∈ inputs →
      matchSignature false (lookupRules rs) inputs ≠ .ok plan) := by
  constructor
  · intro rs n ty pre post s1 hnone hpre
    unfold matchSignature
    rw [matchLoop_append, hpre]
    have hcons : matchLoop false (lookupRules rs) (.simple n ty :: post)
        (0 + pre.length) s1 = .error ⟨.paramIdent n, mappingNotDefinedMsg⟩ := by
      rw [matchLoop_cons_simple, if_neg (by simp)]
      simp only [hnone]
    rw [Nat.zero_add] at hcons
    simp [Except.bind, hcons]
  · intro rs n ty inputs plan hnone hmem hsig
    obtain ⟨pre, post, hsplit⟩ := List.append_of_mem hmem
    subst hsplit
    obtain ⟨s, hloop, -⟩ := matchSignature_ok_elim _ _ _ _ hsig
    obtain ⟨s1, hpre, hrest⟩ := matchLoop_ok_prefix _ _ _ _ _ _ _ hloop
    rw [matchLoop_cons_simple, if_neg (by simp)] at hrest
    simp only [hnone] at hrest
    exact absurd hrest (by simp)

/-- C9: a rule whose argument name matches no function parameter is
never examined by the signature matcher: removing it from the
annotation leaves the entire macro output unchanged, whatever the rule
is (even an additional Pattern rule or one carrying an ignore
predicate), so its expression contributes nothing to the descriptor. -/
theorem c9_unbound_rule_never_examined :
    ∀ ch root pre post (r : TemplateArg) f,
      (∀ n ty, FnArg.simple n ty ∈ f.inputs → n ≠ r.ident) →
      files_internal ch ⟨root, pre ++ r :: post⟩ f =
        files_internal ch ⟨root, pre ++ post⟩ f := by
  intro ch root pre post r f h
  unfold files_internal
  have hcongr : matchSignature (handleCommonAttrs f).1.bench
      (lookupRules (pre ++ r :: post)) f.inputs =
      matchSignature (handleCommonAttrs f).1.bench
        (lookupRules (pre ++ post)) f.inputs := by
    unfold matchSignature
    rw [matchLoop_congr ((handleCommonAttrs f).1.bench)
      (lookupRules (pre ++ r :: post)) (lookupRules (pre ++ post)) f.inputs
      (fun name ty hm => lookupRules_middle (h name ty hm) pre post) 0 initState]
  simp only [hcongr]

/-- C3: for a successful (non-benchmark) expansion the descriptor's
`params` sequence lists the rule expression strings in the function's
declared parameter order (entry `i` is the expression of the rule
bound to parameter `i`), `pattern` is the index of the Pattern-bound
parameter within that sequence, and permuting the rules inside the
annotation (whose rule names are distinct) yields the identical
output. -/
theorem c3_params_follow_declared_order_and_rule_order_irrelevant :
    ∀ ch root (rs rs' : List TemplateArg) f g,
      (rs.map TemplateArg.ident).Nodup →
      rs.Perm rs' →
      (handleCommonAttrs f).1.bench = false →
      files_internal ch ⟨root, rs⟩ f = .success g →
      files_internal ch ⟨root, rs'⟩ f = .success g ∧
      g.desc.params.length = f.inputs.length ∧
      (∀ i, i < f.inputs.length →
        ∃ n ty r, f.inputs.get? i = some (.simple n ty) ∧ lookupRules rs n = some r ∧
          g.desc.params.get? i = some r.value) ∧
      g.desc.pattern < f.inputs.length ∧
      (∃ np typ rp, f.inputs.get? g.desc.pattern = some (.simple np typ) ∧
        lookupRules rs np = some rp ∧ rp.is_pattern = true) := by
  intro ch root rs rs' f g hnodup hperm hbench hsucc
  have hperm_out : files_internal ch ⟨root, rs'⟩ f = files_internal ch ⟨root, rs⟩ f := by
    unfold files_internal
    have hcongr : matchSignature (handleCommonAttrs f).1.bench
        (lookupRules rs') f.inputs =
        matchSignature (handleCommonAttrs f).1.bench (lookupRules rs) f.inputs := by
      unfold matchSignature
      rw [matchLoop_congr ((handleCommonAttrs f).1.bench) (lookupRules rs')
        (lookupRules rs) f.inputs
        (fun name ty hm => (lookupRules_perm hperm hnodup name).symm) 0 initState]
    simp only [hcongr]
  obtain ⟨plan, hsig, hparams, hpattern, hifn, hinv, hbp⟩ :=
    files_internal_success_elim ch ⟨root, rs⟩ f g hsucc
  rw [hbench] at hsig
  obtain ⟨s, hloop, hpat, hplparams, hplig, hplinv⟩ :=
    matchSignature_ok_elim false (lookupRules rs) f.inputs plan hsig
  obtain ⟨eps, eia, hps, hia, hlp, hli, hidx⟩ :=
    matchLoop_ok_ext (lookupRules rs) f.inputs 0 initState s hloop
  have hseps : s.params = eps := by
    rw [hps]
    rfl
  have hgprm : g.desc.params = eps := by
    rw [hparams, hplparams, hseps]
  refine ⟨by rw [hperm_out, hsucc], by rw [hgprm, hlp], ?_, ?_, ?_⟩
  · intro i hi
    obtain ⟨n, ty, r, hg2, hr, hep, -⟩ := hidx i hi
    exact ⟨n, ty, r, hg2, hr, by rw [hgprm]; exact hep⟩
  · rcases matchLoop_ok_pattern (lookupRules rs) f.inputs 0 initState s hloop with
      ⟨hpi, -, -⟩ | ⟨-, j, n, ty, r, hg2, hr, hp, hpi, -, -⟩
    · rw [hpat] at hpi
      simp [initState] at hpi
    · have hj : g.desc.pattern = j := by
        rw [hpi] at hpat
        simp at hpat
        rw [hpattern]
        omega
      rw [hj]
      by_contra hge
      push_neg at hge
      rw [List.get?_eq_none.mpr hge] at hg2
      exact absurd hg2 (by simp)
  · rcases matchLoop_ok_pattern (lookupRules rs) f.inputs 0 initState s hloop with
      ⟨hpi, -, -⟩ | ⟨-, j, n, ty, r, hg2, hr, hp, hpi, -, -⟩
    · rw [hpat] at hpi
      simp [initState] at hpi
    · have hj : g.desc.pattern = j := by
        rw [hpi] at hpat
        simp at hpat
        rw [hpattern]
        omega
      rw [hj]
      exact ⟨n, ty, r, hg2, hr, hp⟩

/-- C1 counterexample: the rule set `{a in "x", b in "y"}` has two
Pattern rules, yet matched against `fn f(a: &str)` the macro succeeds
and emits a full descriptor — matching does not fail against every
signature when two Pattern rules are present. -/
theorem c1_counterexample_two_patterns_one_bound_succeeds :
    files_internal .stable ⟨"root", [⟨"a", true, none, "x"⟩, ⟨"b", true, none, "y"⟩]⟩
      ⟨"f", [], [.simple "a" (.ref "str")]⟩ =
    .success
      ⟨.ctorRegistration "__TEST_f__REGISTRATION" "__TEST_f",
        ⟨"f", false, "root", ["x"], 0, none, .testFn "__TEST_TRAMPOLINE_f"⟩,
        ⟨"__TEST_TRAMPOLINE_f", none, [.takeArg (.ref "str") 0], "f"⟩,
        ⟨"f", [], [.simple "a" (.ref "str")]⟩⟩ := by
  rfl

/-- C1 (amended): a rule set with zero Pattern rules never matches any
signature (no generated output ever), and when every parameter is a
simple binding mapped by the rule set the failure is the
missing-pattern error reported at the call site; when the matcher
encounters a Pattern-bound parameter after a Pattern has already been
bound, it fails with the duplicate-pattern error on the token of that
second Pattern rule.  A Pattern rule bound by no parameter is never
encountered, so two-or-more Pattern rules only fail when a signature
binds two of them. -/
theorem c1_amended_zero_and_duplicate_pattern_failures :
    (∀ ch root (rs : List TemplateArg) f,
      (∀ a ∈ rs, a.is_pattern = false) →
      (∀ g, files_internal ch ⟨root, rs⟩ f ≠ .success g) ∧
      ((∀ arg ∈ f.inputs, ∃ n ty r, arg = FnArg.simple n ty ∧
          lookupRules rs n = some r) →
        files_internal ch ⟨root, rs⟩ f =
          .compileError .callSite missingPatternMsg)) ∧
    (∀ (bench : Bool) (rs : List TemplateArg) pre n2 ty2 post s1 p r2,
      matchLoop bench (lookupRules rs) pre 0 initState = .ok s1 →
      s1.patternIdx = some p →
      lookupRules rs n2 = some r2 →
      r2.is_pattern = true →
      matchSignature bench (lookupRules rs) (pre ++ .simple n2 ty2 :: post) =
        .error ⟨.ruleIdent n2, twoPatternsMsg⟩) := by
  constructor
  · intro ch root rs f hnop
    constructor
    · intro g hg
      obtain ⟨plan, hsig, -, -, -, -, -⟩ := files_internal_success_elim ch ⟨root, rs⟩ f g hg
      obtain ⟨s, hloop, hpat, -, -, -⟩ := matchSignature_ok_elim _ _ _ _ hsig
      rcases matchLoop_pattern_source _ _ _ _ _ _ hloop with hsame | ⟨n, ty, r, hm, hr, hp⟩
      · rw [hpat] at hsame
        simp [initState] at hsame
      · obtain ⟨hmem, -⟩ := lookupRules_mem hr
        rw [hnop r hmem] at hp
        simp at hp
    · intro hmapped
      have hall : ∀ a ∈ f.inputs, ∃ n ty, a = FnArg.simple n ty ∧
          ∃ r, lookupRules rs n = some r ∧ r.is_pattern = false := by
        intro a ha
        obtain ⟨n, ty, r, haeq, hr⟩ := hmapped a ha
        refine ⟨n, ty, haeq, r, hr, ?_⟩
        obtain ⟨hmem, -⟩ := lookupRules_mem hr
        exact hnop r hmem
      obtain ⟨s', hok, hpi⟩ := matchLoop_no_pattern_ok ((handleCommonAttrs f).1.bench)
        (lookupRules rs) f.inputs hall 0 initState
      have hsigerr : matchSignature (handleCommonAttrs f).1.bench (lookupRules rs)
          f.inputs = .error ⟨.callSite, missingPatternMsg⟩ := by
        unfold matchSignature
        simp only [hok]
        have hnone : s'.patternIdx = none := by
          rw [hpi]
          rfl
        simp only [hnone]
      simp [files_internal, hsigerr]
  · intro bench rs pre n2 ty2 post s1 p r2 hpre hp1 hr2 hp2
    cases pre with
    | nil =>
      have hs1 : s1 = initState := by
        have h0 := hpre
        simp [matchLoop] at h0
        exact h0.symm
      rw [hs1] at hp1
      simp [initState] at hp1
    | cons a pre' =>
      unfold matchSignature
      rw [matchLoop_append, hpre]
      have hcons : matchLoop bench (lookupRules rs) (.simple n2 ty2 :: post)
          (0 + (a :: pre').length) s1 = .error ⟨.ruleIdent n2, twoPatternsMsg⟩ := by
        rw [matchLoop_cons_simple, if_neg (by simp)]
        simp only [hr2]
        rw [if_pos hp2, if_pos (by rw [hp1]; rfl)]
        have hid : r2.ident = n2 := (lookupRules_mem hr2).2
        rw [hid]
      simp only [Nat.zero_add, List.length_cons] at hcons
      simp [Except.bind, hcons]

/-- C10 counterexample: with the original benchmark parameter named
`paths_arg` rather than `bencher`, the generated trampoline still
resolves every variable it references (the passed identifier collides
with the trampoline's path-slice parameter), so the reference is not
in scope exclusively when the parameter is named `bencher`. -/
theorem c10_counterexample_paths_arg_collision_scopes :
    (trampolineOf (files_internal .stable ⟨"r", [⟨"a", true, none, "p"⟩]⟩
      ⟨"f", ["bench"], [.simple "paths_arg" (.ref "Bencher"),
        .simple "a" (.plain "String")]⟩)).map Trampoline.wellScoped = some true := by
  rfl

/-- C10 (amended): for a benchmark file-driven test the generated
trampoline declares its controller parameter with the fixed name
`bencher` but invokes the original function passing the original first
parameter's identifier; the generated body resolves all its variable
references exactly when that identifier is `bencher` or collides with
the trampoline's path-slice parameter `paths_arg` — only the `bencher`
case refers to the benchmark controller. -/
theorem c10_amended_bench_trampoline_scope :
    ∀ ch root (rs : List TemplateArg) f n0 ty0 rest g,
      f.inputs = .simple n0 ty0 :: rest →
      (handleCommonAttrs f).1.bench = true →
      files_internal ch ⟨root, rs⟩ f = .success g →
      g.trampoline.benchParam = some "bencher" ∧
      g.trampoline.invokeArgs.get? 0 = some (.benchIdent n0) ∧
      (g.trampoline.wellScoped = true ↔ (n0 = "bencher" ∨ n0 = "paths_arg")) := by
  intro ch root rs f n0 ty0 rest g hinputs hbench hsucc
  obtain ⟨plan, hsig, hparams, hpattern, hifn, hinv, hbp⟩ :=
    files_internal_success_elim ch ⟨root, rs⟩ f g hsucc
  rw [hbench] at hsig hbp
  simp only [if_true] at hbp
  rw [hinputs] at hsig
  obtain ⟨s, hloop, hpat, hplp, hplig, hplinv⟩ :=
    matchSignature_ok_elim true (lookupRules rs) _ plan hsig
  rw [matchLoop_cons_simple, if_pos (by simp)] at hloop
  rw [matchLoop_shift] at hloop
  have hst : ({ initState with
      invokeArgs := initState.invokeArgs ++ [InvokeArg.benchIdent n0] } : LoopState) =
      ⟨none, none, [] ++ [], [InvokeArg.benchIdent n0] ++ []⟩ := by
    simp [initState]
  rw [hst, matchLoop_frame] at hloop
  cases hM : matchLoop false (lookupRules rs) rest 0 ⟨none, none, [], []⟩ with
  | error e =>
    rw [hM] at hloop
    simp [Except.map] at hloop
  | ok s0 =>
    rw [hM] at hloop
    simp only [Except.map, Except.ok.injEq] at hloop
    obtain ⟨eps, eia, hps, hia, hlp, hli, hidx⟩ :=
      matchLoop_ok_ext (lookupRules rs) rest 0 ⟨none, none, [], []⟩ s0 hM
    have hs0inv : s0.invokeArgs = eia := by
      rw [hia]
      rfl
    have hsinv : s.invokeArgs = InvokeArg.benchIdent n0 :: eia := by
      rw [← hloop]
      show [InvokeArg.benchIdent n0] ++ s0.invokeArgs = InvokeArg.benchIdent n0 :: eia
      rw [hs0inv]
      rfl
    have htramp : g.trampoline.invokeArgs = InvokeArg.benchIdent n0 :: eia := by
      rw [hinv, hplinv, hsinv]
    have heia_take : ∀ x ∈ eia, ∃ ty2 idx, x = InvokeArg.takeArg ty2 idx := by
      intro x hx
      obtain ⟨i, hi⟩ := List.get?_of_mem hx
      have hilt : i < rest.length := by
        by_contra hge
        push_neg at hge
        rw [List.get?_eq_none.mpr (by omega)] at hi
        exact absurd hi (by simp)
      obtain ⟨n2, ty2, r2, -, -, -, hei⟩ := hidx i (by rw [← hli] at hilt; rwa [hli] at hilt)
      rw [hi] at hei
      exact ⟨ty2, 0 + i, Option.some.inj hei⟩
    refine ⟨hbp, by simp [htramp], ?_⟩
    unfold Trampoline.wellScoped
    rw [htramp]
    constructor
    · intro hws
      rw [List.all_cons] at hws
      have hhead := (Bool.and_eq_true _ _).mp hws |>.1
      simp [InvokeArg.refs, Trampoline.scope, hbp] at hhead
      rcases hhead with h1 | h2
      · exact Or.inl h1
      · exact Or.inr h2
    · intro hn0
      rw [List.all_cons]
      refine (Bool.and_eq_true _ _).mpr ⟨?_, ?_⟩
      · simp [InvokeArg.refs, Trampoline.scope, hbp]
        rcases hn0 with h1 | h2
        · exact Or.inl h1
        · exact Or.inr h2
      · rw [List.all_eq_true]
        intro x hx
        obtain ⟨ty2, idx, hxeq⟩ := heia_take x hx
        subst hxeq
        simp [InvokeArg.refs, Trampoline.scope, hbp]

/-! ## Witnesses -/

theorem c4_witness :
    describe_fn_run (fun n : Nat => n) ([] : List (DataCaseIn Nat)) =
      Except.error "no test cases were found!" ∧
    ([⟨6, "n1", "loc1"⟩] : List (DataCaseOut Nat)).length =
      ([⟨6, "n1", "loc1"⟩] : List (DataCaseIn Nat)).length :=
  ⟨(c4_describe_fn_empty_assert_and_preserves (fun n : Nat => n) []).1.mpr rfl,
    ((c4_describe_fn_empty_assert_and_preserves (fun n : Nat => n)
      [⟨6, "n1", "loc1"⟩]).2 [⟨6, "n1", "loc1"⟩] rfl).1⟩

theorem c7_witness :
    (⟨"a", true, some "p", "v"⟩ : TemplateArg).is_pattern = true ∧
    parseFilesTestArgs "root" [.ident "a", .eqTok, .litStr "v", .kwIf, .bang, .path "p"] =
      .error ⟨"expected `,`"⟩ :=
  ⟨c7_if_suffix_only_for_pattern_rules.1
      [.ident "a", .kwIn, .litStr "v", .kwIf, .bang, .path "p"]
      ⟨"a", true, some "p", "v"⟩ [] rfl rfl,
    c7_if_suffix_only_for_pattern_rules.2 "a" "v" [.bang, .path "p"] "root"⟩

theorem c8_witness :
    (⟨.testCaseAttr, "__TEST_t", false, "__TEST_DESCRIBE_t", "__TEST_TRAMPOLINE_t",
      false, false, none, .yamlCall "path", ⟨"t", [], []⟩⟩ : DataGenerated).source =
      .yamlCall "path" ∧
    (⟨.testCaseAttr, "__TEST_t", false, "__TEST_DESCRIBE_t", "__TEST_TRAMPOLINE_t",
      false, false, none, .verbatim [.ident "gen"], ⟨"t", [], []⟩⟩ : DataGenerated).source =
      .verbatim [.ident "gen"] :=
  ⟨c8_case_source_literal_or_verbatim.1 .nightly "path" ⟨"t", [], []⟩ _ rfl,
    c8_case_source_literal_or_verbatim.2 .nightly [.ident "gen"] ⟨"t", [], []⟩ _
      (by simp) (fun s rest h => absurd h (by simp)) rfl⟩

theorem c6_witness :
    matchSignature false (lookupRules []) [.simple "a" (.plain "u8")] =
      .error ⟨.paramIdent "a", mappingNotDefinedMsg⟩ ∧
    matchSignature false (lookupRules []) [.simple "a" (.plain "u8")] ≠
      .ok ⟨[], 0, none, []⟩ :=
  ⟨c6_unmapped_parameter_fails.1 [] "a" (.plain "u8") [] [] initState rfl rfl,
    c6_unmapped_parameter_fails.2 [] "a" (.plain "u8") [.simple "a" (.plain "u8")]
      ⟨[], 0, none, []⟩ rfl (by simp)⟩

theorem c9_witness :
    files_internal .stable ⟨"root", [⟨"a", true, none, "x"⟩, ⟨"z", true, some "p", "y"⟩]⟩
        ⟨"f", [], [.simple "a" (.ref "str")]⟩ =
      files_internal .stable ⟨"root", [⟨"a", true, none, "x"⟩]⟩
        ⟨"f", [], [.simple "a" (.ref "str")]⟩ :=
  c9_unbound_rule_never_examined .stable "root" [⟨"a", true, none, "x"⟩] []
    ⟨"z", true, some "p", "y"⟩ ⟨"f", [], [.simple "a" (.ref "str")]⟩
    (by
      intro n ty hm
      simp at hm
      rw [hm.1]
      decide)

theorem c5_witness :
    files_internal .stable ⟨"root", []⟩ ⟨"f", [], [.simple "a" (.plain "u8")]⟩ =
      .compileError (.paramIdent "a") mappingNotDefinedMsg :=
  c5_match_failure_emits_only_diagnostic .stable ⟨"root", []⟩
    ⟨"f", [], [.simple "a" (.plain "u8")]⟩
    ⟨.paramIdent "a", mappingNotDefinedMsg⟩ rfl

theorem c2_witness :
    matchSignature true (lookupRules [⟨"a", true, none, "x"⟩])
        [.simple "bee" (.ref "Bencher"), .simple "a" (.plain "u8")] =
      (matchSignature false (lookupRules [⟨"a", true, none, "x"⟩])
          [.simple "a" (.plain "u8")]).map
        (fun p => { p with invokeArgs := .benchIdent "bee" :: p.invokeArgs }) ∧
    (∃ r, lookupRules [⟨"a", true, none, "x"⟩] "a" = some r ∧
      (⟨["x"], 0, none, [.benchIdent "bee", .takeArg (.plain "u8") 0]⟩
        : MatchPlan).params.get? 0 = some r.value ∧
      (⟨["x"], 0, none, [.benchIdent "bee", .takeArg (.plain "u8") 0]⟩
        : MatchPlan).invokeArgs.get? 0 = some (.benchIdent "bee") ∧
      (⟨["x"], 0, none, [.benchIdent "bee", .takeArg (.plain "u8") 0]⟩
        : MatchPlan).invokeArgs.get? 1 = some (.takeArg (.plain "u8") 0)) :=
  ⟨c2_bench_first_param_excluded_rest_shifted.1 (lookupRules [⟨"a", true, none, "x"⟩])
      "bee" (.ref "Bencher") [.simple "a" (.plain "u8")],
    c2_bench_first_param_excluded_rest_shifted.2 (lookupRules [⟨"a", true, none, "x"⟩])
      "bee" (.ref "Bencher") "a" (.plain "u8") []
      ⟨["x"], 0, none, [.benchIdent "bee", .takeArg (.plain "u8") 0]⟩ rfl⟩

theorem c3_witness :
    files_internal .stable
        ⟨"tests", [⟨"output", false, none, "tpl"⟩, ⟨"input", true, none, "pat"⟩]⟩
        ⟨"run", [], [.simple "input" (.ref "str"), .simple "output" (.ref "str")]⟩ =
      .success
        ⟨.ctorRegistration "__TEST_run__REGISTRATION" "__TEST_run",
          ⟨"run", false, "tests", ["pat", "tpl"], 0, none, .testFn "__TEST_TRAMPOLINE_run"⟩,
          ⟨"__TEST_TRAMPOLINE_run", none,
            [.takeArg (.ref "str") 0, .takeArg (.ref "str") 1], "run"⟩,
          ⟨"run", [], [.simple "input" (.ref "str"), .simple "output" (.ref "str")]⟩⟩ ∧
    (⟨.ctorRegistration "__TEST_run__REGISTRATION" "__TEST_run",
      ⟨"run", false, "tests", ["pat", "tpl"], 0, none, .testFn "__TEST_TRAMPOLINE_run"⟩,
      ⟨"__TEST_TRAMPOLINE_run", none,
        [.takeArg (.ref "str") 0, .takeArg (.ref "str") 1], "run"⟩,
      ⟨"run", [], [.simple "input" (.ref "str"), .simple "output" (.ref "str")]⟩⟩
      : FilesGenerated).desc.params.length = 2 :=
  ⟨(c3_params_follow_declared_order_and_rule_order_irrelevant .stable "tests"
      [⟨"input", true, none, "pat"⟩, ⟨"output", false, none, "tpl"⟩]
      [⟨"output", false, none, "tpl"⟩, ⟨"input", true, none, "pat"⟩]
      ⟨"run", [], [.simple "input" (.ref "str"), .simple "output" (.ref "str")]⟩ _
      (by decide) (List.Perm.swap (⟨"output", false, none, "tpl"⟩ : TemplateArg) ⟨"input", true, none, "pat"⟩ [])
      rfl rfl).1,
    (c3_params_follow_declared_order_and_rule_order_irrelevant .stable "tests"
      [⟨"input", true, none, "pat"⟩, ⟨"output", false, none, "tpl"⟩]
      [⟨"output", false, none, "tpl"⟩, ⟨"input", true, none, "pat"⟩]
      ⟨"run", [], [.simple "input" (.ref "str"), .simple "output" (.ref "str")]⟩ _
      (by decide) (List.Perm.swap (⟨"output", false, none, "tpl"⟩ : TemplateArg) ⟨"input", true, none, "pat"⟩ [])
      rfl rfl).2.1⟩

theorem c1_amended_witness :
    files_internal .stable ⟨"root", [⟨"a", false, none, "x"⟩]⟩
        ⟨"f", [], [.simple "a" (.plain "u8")]⟩ =
      .compileError .callSite missingPatternMsg ∧
    matchSignature false (lookupRules [⟨"a", true, none, "x"⟩, ⟨"b", true, none, "y"⟩])
        [.simple "a" (.plain "u8"), .simple "b" (.plain "u8")] =
      .error ⟨.ruleIdent "b", twoPatternsMsg⟩ :=
  ⟨(c1_amended_zero_and_duplicate_pattern_failures.1 .stable "root"
      [⟨"a", false, none, "x"⟩] ⟨"f", [], [.simple "a" (.plain "u8")]⟩ (by decide)).2
      (by
        intro arg harg
        simp at harg
        subst harg
        exact ⟨"a", .plain "u8", ⟨"a", false, none, "x"⟩, rfl, rfl⟩),
    c1_amended_zero_and_duplicate_pattern_failures.2 false
      [⟨"a", true, none, "x"⟩, ⟨"b", true, none, "y"⟩]
      [.simple "a" (.plain "u8")] "b" (.plain "u8") []
      ⟨some 0, none, ["x"], [.takeArg (.plain "u8") 0]⟩ 0
      ⟨"b", true, none, "y"⟩ rfl rfl rfl rfl⟩

theorem c10_amended_witness :
    (⟨.ctorRegistration "__TEST_f__REGISTRATION" "__TEST_f",
      ⟨"f", false, "r", ["p"], 0, none, .benchFn "__TEST_TRAMPOLINE_f"⟩,
      ⟨"__TEST_TRAMPOLINE_f", some "bencher",
        [.benchIdent "bencher", .takeArg (.plain "String") 0], "f"⟩,
      ⟨"f", [], [.simple "bencher" (.ref "Bencher"), .simple "a" (.plain "String")]⟩⟩
      : FilesGenerated).trampoline.benchParam = some "bencher" ∧
    (⟨.ctorRegistration "__TEST_f__REGISTRATION" "__TEST_f",
      ⟨"f", false, "r", ["p"], 0, none, .benchFn "__TEST_TRAMPOLINE_f"⟩,
      ⟨"__TEST_TRAMPOLINE_f", some "bencher",
        [.benchIdent "bencher", .takeArg (.plain "String") 0], "f"⟩,
      ⟨"f", [], [.simple "bencher" (.ref "Bencher"), .simple "a" (.plain "String")]⟩⟩
      : FilesGenerated).trampoline.wellScoped = true := by
  obtain ⟨h1, h2, h3⟩ := c10_amended_bench_trampoline_scope .stable "r"
    [⟨"a", true, none, "p"⟩]
    ⟨"f", ["bench"], [.simple "bencher" (.ref "Bencher"), .simple "a" (.plain "String")]⟩
    "bencher" (.ref "Bencher") [.simple "a" (.plain "String")]
    ⟨.ctorRegistration "__TEST_f__REGISTRATION" "__TEST_f",
      ⟨"f", false, "r", ["p"], 0, none, .benchFn "__TEST_TRAMPOLINE_f"⟩,
      ⟨"__TEST_TRAMPOLINE_f", some "bencher",
        [.benchIdent "bencher", .takeArg (.plain "String") 0], "f"⟩,
      ⟨"f", [], [.simple "bencher" (.ref "Bencher"), .simple "a" (.plain "String")]⟩⟩
    rfl rfl rfl
  exact ⟨h1, h3.mpr (Or.inl rfl)⟩
